import Mathlib

namespace Mockoon

/-!
# Verification of the mock-API serving engine (`ServerService`)

Shallow embedding of `src/app/services/server.service.ts` and
`src/app/types/environment.type.ts`.  Pure fragments of the TypeScript
code are translated into executable Lean functions; the Express response
object is modelled as an association list of header key/value pairs;
platform builtins (the template renderer `DummyJSONParser`, `JSON.parse`,
the file system, mime lookup, the router's pattern compiler) are passed
in as explicit function parameters, so every theorem quantifies over
them.

All definitions come first, followed by the theorems.
-/

/-! ## Data model

`HeaderType` and `RouteType` live in `src/app/types/route.type.ts`,
which is not part of the provided sources; they are modelled from the
spec (§3).  `setHeaders` receives `Partial<HeaderType>[]`, so both
fields of a header entry may be absent; absence and the empty string
are both falsy in the JavaScript guards, and we keep them distinct with
`Option`. -/

/-- Modelled from the spec: a `HeaderType` entry of `route.type.ts`
(not under `src/`), a (key, value-template) pair whose fields may be
absent (`Partial<HeaderType>`). -/
structure HeaderType where
  key : Option String
  value : Option String
  deriving DecidableEq, Repr

/-- Modelled from the spec: a `RouteType` of `route.type.ts` (not under
`src/`): method, endpoint pattern, status code, latency, body template,
optional file path, send-file-as-body flag, header list, and the list of
indices of colliding routes (`duplicates`). -/
structure RouteType where
  method : String
  endpoint : String
  statusCode : Nat
  latency : Nat
  body : String
  filePath : String
  sendFileAsBody : Bool
  headers : List HeaderType
  duplicates : List Nat
  deriving DecidableEq, Repr

/-- Embeds `EnvironmentType` from `src/app/types/environment.type.ts`.
Dates are modelled as naturals. -/
structure EnvironmentType where
  uuid : String
  running : Bool
  name : String
  port : Nat
  endpointPrefix : String
  latency : Nat
  routes : List RouteType
  startedAt : Option Nat
  modifiedAt : Option Nat
  needRestart : Option Bool
  proxyMode : Bool
  proxyHost : String
  https : Bool
  cors : Bool
  headers : List HeaderType
  duplicates : List Nat
  deriving DecidableEq, Repr

/-! ## The Express response headers

Express's `res.set(key, value)` overwrites any previously written value
for the same key.  We model the written headers as an association list
where `resSet` removes the old binding and `getHeader` finds the
current one. -/

/-- The headers written so far on an Express response object. -/
abbrev ResHeaders := List (String × String)

/-- Model of `res.set(k, v)`: write header `k`, overwriting a previous
value. -/
def resSet (res : ResHeaders) (k v : String) : ResHeaders :=
  (k, v) :: res.filter (fun p => p.1 ≠ k)

/-- The value of header `k` currently written on the response. -/
def getHeader : ResHeaders → String → Option String
  | [], _ => none
  | p :: t, k => if p.1 = k then some p.2 else getHeader t k

/-! ## Header validation and application -/

/-- The permitted HTTP token characters of the regex character class in
`testHeaderValidity` (line 124): `A-Za-z0-9` and the fifteen symbols
(dash, bang, hash, dollar, percent, ampersand, quote, star, plus, dot,
caret, underscore, backquote, pipe, tilde), written by code point. -/
def isHeaderTokenChar (c : Char) : Bool :=
  (65 ≤ c.toNat && c.toNat ≤ 90) ||
  (97 ≤ c.toNat && c.toNat ≤ 122) ||
  (48 ≤ c.toNat && c.toNat ≤ 57) ||
  c.toNat ∈ [45, 33, 35, 36, 37, 38, 39, 42, 43, 46, 94, 95, 96, 124, 126]

/-- Embeds `testHeaderValidity` (lines 123–128): returns `true` (meaning
the header name is INVALID) iff the name is truthy (non-empty) and
matches the negated token-character class somewhere. -/
def testHeaderValidity (headerName : String) : Bool :=
  headerName ≠ "" && headerName.data.any (fun c => !(isHeaderTokenChar c))

/-- JavaScript truthiness of an optional string: `undefined` and the
empty string are falsy. -/
def strTruthy : Option String → Bool
  | none => false
  | some s => s ≠ ""

/-- The guard of `setHeaders` (line 255):
`header.key && header.value && !this.testHeaderValidity(header.key)`. -/
def headerApplies (h : HeaderType) : Bool :=
  strTruthy h.key && strTruthy h.value && !(testHeaderValidity (h.key.getD ""))

/-- One iteration of the `setHeaders` loop (lines 254–258).  `render`
stands for `DummyJSONParser (·, req)`, the template renderer applied
with the current request as context. -/
def setHeadersStep (render : String → String) (res : ResHeaders) (h : HeaderType) :
    ResHeaders :=
  if headerApplies h then resSet res (h.key.getD "") (render (h.value.getD "")) else res

/-- Embeds `setHeaders` (lines 253–259): apply each header entry in
order to the response. -/
def setHeaders (render : String → String) (headers : List HeaderType)
    (res : ResHeaders) : ResHeaders :=
  headers.foldl (setHeadersStep render) res

/-- The value-template of the LAST entry of `headers` that passes the
`setHeaders` guard for key `k` — the one whose write survives. -/
def appliedValue (k : String) : List HeaderType → Option String
  | [] => none
  | h :: t =>
    match appliedValue k t with
    | some v => some v
    | none => if headerApplies h ∧ h.key = some k then h.value else none

/-- Lines 172–173 of `setRoutes`: on a matched request the environment's
headers are applied first, then the route's headers, onto the same
response object. -/
def applyRouteResponseHeaders (render : String → String) (env : EnvironmentType)
    (route : RouteType) (res : ResHeaders) : ResHeaders :=
  setHeaders render (RouteType.headers route)
    (setHeaders render (EnvironmentType.headers env) res)

/-! ## Request logging (`logRequests`, lines 314–331) -/

/-- Modelled from the spec: a `LogEntry` as produced by
`DataService.formatRequestLog` (not under `src/`): an immutable snapshot
of an inbound request — method, path, headers mapping, body, timestamp,
proxied flag (§3, §6). -/
structure LogEntry where
  method : String
  path : String
  headers : List (String × String)
  body : String
  timestamp : Nat
  proxied : Bool
  deriving DecidableEq, Repr

/-- One execution of the `logRequests` middleware body (lines 322–327)
on an environment's buffer.  The head of the list is the most recent
entry.  `cap` stands for `Config.maxLogsPerEnvironment` (the constant
lives in `src/app/config`, not under `src/`): if the buffer length has
reached the capacity, `pop()` removes the last (oldest) element, then
`unshift` inserts the new entry at the head. -/
def logStep (cap : Nat) (buf : List LogEntry) (entry : LogEntry) : List LogEntry :=
  entry :: (if cap ≤ buf.length then buf.dropLast else buf)

/-- The environment's buffer after a sequence of inbound requests,
oldest request first in `entries`. -/
def processRequests (cap : Nat) (buf : List LogEntry) (entries : List LogEntry) :
    List LogEntry :=
  entries.foldl (logStep cap) buf

/-! ## Route registration (`setRoutes`, lines 158–243) -/

/-- Embeds `route.endpoint.replace(/ /g, '%20')` (line 164) on the
character list: every literal space becomes the three characters
percent, two, zero. -/
def escapeSpacesList : List Char → List Char
  | [] => []
  | c :: t => (if c = ' ' then ['%', '2', '0'] else [c]) ++ escapeSpacesList t

/-- Embeds `route.endpoint.replace(/ /g, '%20')` (line 164). -/
def escapeSpaces (s : String) : String :=
  String.mk (escapeSpacesList s.data)

/-- The path registered for a route (line 164):
`'/' + (environment.endpointPrefix ? environment.endpointPrefix + '/' : '') +
route.endpoint.replace(/ /g, '%20')`. -/
def buildRoutePath (prefixPart endpoint : String) : String :=
  "/" ++ (if prefixPart ≠ "" then prefixPart ++ "/" else "") ++ escapeSpaces endpoint

/-- The path exactly as claim C9 words it: "the environment's endpoint
prefix (when present) followed by `/` followed by the route's endpoint,
with every literal space character escaped". -/
def claimRoutePath (prefixPart endpoint : String) : String :=
  (if prefixPart ≠ "" then prefixPart else "") ++ "/" ++ escapeSpaces endpoint

/-- A handler registered on the Express server by `setRoutes`:
`server[route.method](path, callback)` (line 164). -/
structure RegisteredHandler where
  method : String
  path : String
  route : RouteType
  deriving DecidableEq, Repr

/-- Embeds `setRoutes` (lines 158–243): walk the environment's routes
in order; a route is registered only when its `duplicates` list is
empty (line 161), and registration of an invalid path pattern throws
inside `server[route.method]` and skips that single route — the
router's pattern compiler is modelled by the `validPattern`
parameter. -/
def setRoutes (validPattern : String → Bool) (env : EnvironmentType) :
    List RegisteredHandler :=
  (env.routes.filter (fun r => r.duplicates.isEmpty &&
      validPattern (buildRoutePath (EnvironmentType.endpointPrefix env) r.endpoint))).map
    (fun r => ⟨r.method, buildRoutePath (EnvironmentType.endpointPrefix env) r.endpoint, r⟩)

/-- The router tries the registered handlers in order and dispatches to
the first one matching the request (`matcher` folds the concrete
request into a predicate on handlers). -/
def dispatch (matcher : RegisteredHandler → Bool) (handlers : List RegisteredHandler) :
    Option RegisteredHandler :=
  handlers.find? matcher

/-! ## Body resolution of a matched route (lines 176–233) -/

/-- Modelled from the spec: the error catalogue of
`src/app/enums/errors.enum.ts` is not under `src/`; only the identity
of each message matters for the claims, not its wording. -/
def jsonParseErrorText : String := "error while parsing JSON"

/-- Modelled from the spec: the `Errors.MISSING_HELPER` message stem
(`errors.enum.ts` is not under `src/`); the code appends the helper
name it extracts from the thrown message (line 218). -/
def missingHelperErrorText : String := "missing helper "

/-- Decides whether the pattern list is a prefix of the text list. -/
def charsHavePre : List Char → List Char → Bool
  | [], _ => true
  | _ :: _, [] => false
  | c :: cs, d :: ds => c = d && charsHavePre cs ds

/-- Decides whether the pattern occurs somewhere in the text list. -/
def charsContain (pat : List Char) : List Char → Bool
  | [] => charsHavePre pat []
  | c :: rest => charsHavePre pat (c :: rest) || charsContain pat rest

/-- Embeds JavaScript's `msg.indexOf(pat) > -1`: `pat` occurs as a
substring of `msg`. -/
def containsSubstr (msg pat : String) : Bool :=
  charsContain pat.data msg.data

/-- Embeds `error.message.split('"')[1]` (line 218): the text between
the first double quote of the message and the following one (or the
message's end).  The JavaScript corner where the message has no quote
at all (`split` yields `undefined`) is not modelled; no claim touches
it. -/
def quotedHelperName (msg : String) : String :=
  String.mk (((msg.data.dropWhile (fun c => c ≠ Char.ofNat 34)).drop 1).takeWhile
    (fun c => c ≠ Char.ofNat 34))

/-- The observable response of the inline-body branch.  `endedEmpty` is
a bare `res.end()` with nothing written: no body, no alert. -/
inductive InlineResponse (α : Type) where
  | jsonResponse (value : α)
  | textResponse (body : String)
  | errorResponse (message : String) (contentType : String) (alertRaised : Bool)
  | endedEmpty
  deriving DecidableEq, Repr

/-- The inline-body branch of the route callback (lines 208–232).
`render` is `DummyJSONParser (·, req)` on a successfully rendering
template; `jsonParse` models the `JSON.parse` builtin, failing with the
thrown error's message string.  The catch branch (lines 213–221)
dispatches on that message: a message containing `Unexpected token` or
`Parse error` gets `sendError(res, Errors.JSON_PARSE)` (lines 269–275:
alert shown, `text/plain` error body); a message containing
`Missing helper` gets `sendError` with the missing-helper text plus the
quoted helper name; any other failure message falls through both tests
and reaches the bare `res.end()` — no error body, no alert. -/
def handleInlineBody {α : Type} (routeContentType : String) (render : String → String)
    (jsonParse : String → Except String α) (body : String) : InlineResponse α :=
  if routeContentType = "application/json" then
    match jsonParse (render body) with
    | Except.ok v => InlineResponse.jsonResponse v
    | Except.error msg =>
      if containsSubstr msg "Unexpected token" || containsSubstr msg "Parse error" then
        InlineResponse.errorResponse jsonParseErrorText "text/plain" true
      else if containsSubstr msg "Missing helper" then
        InlineResponse.errorResponse (missingHelperErrorText ++ quotedHelperName msg)
          "text/plain" true
      else
        InlineResponse.endedEmpty
  else
    InlineResponse.textResponse (render body)

/-- The observable response of the file-serving branch. -/
structure FileResponse where
  contentTypeHeader : Option String
  body : String
  contentDisposition : Option String
  deriving DecidableEq, Repr

/-- The file-serving branch of the route callback (lines 176–199) on
its success path: the file path is resolved through `DummyJSONParser`
(`render`, line 181), the mime type is looked up from the route's
configured path (line 182, `mimeTypes.lookup` modelled by `mimeLookup`,
`none` for its `false` result), the file is read at the resolved path
(line 189), and the content is additionally rendered iff the mime type
is in `mimeTypesWithTemplating` (lines 192–194), the allow-list
constant of `route.type.ts` (not under `src/`), modelled as the
parameter `templatableMimeTypes`.  A `Content-Disposition` attachment
header is set unless the route sends the file as body (lines 196–198),
and the detected mime type is written as `Content-Type` when the route
declares none (lines 185–187). -/
def handleFileRoute (render readFile : String → String)
    (mimeLookup : String → Option String) (templatableMimeTypes : List String)
    (basename : String → String) (routeContentType : String) (route : RouteType) :
    FileResponse :=
  let filePath := render route.filePath
  let fileMimeType := mimeLookup route.filePath
  let fileContent := readFile filePath
  { contentTypeHeader := if routeContentType = "" then fileMimeType else none,
    body :=
      match fileMimeType with
      | some m => if m ∈ templatableMimeTypes then render fileContent else fileContent
      | none => fileContent,
    contentDisposition :=
      if route.sendFileAsBody then none
      else some ("attachment; filename=\x22" ++ basename filePath ++ "\x22") }

/-! ## Proxy fallback (`enableProxy`, lines 284–306) -/

/-- Split a character list at the first occurrence of colon-slash-slash. -/
def splitSchemeAux : List Char → Option (List Char × List Char)
  | [] => none
  | c :: rest =>
    if c = ':' ∧ rest.take 2 = ['/', '/'] then some ([], rest.drop 2)
    else (splitSchemeAux rest).map (fun p => (c :: p.1, p.2))

/-- Modelled from the spec: `isValidURL` (lines 351–358) delegates to
the WHATWG `new URL(...)` builtin, which is not part of this
repository; per the spec an address is accepted iff it parses as an
absolute URL — a non-empty alphabetic scheme, the separator, and a
non-empty remainder. -/
def isValidURL (address : String) : Bool :=
  match splitSchemeAux address.data with
  | some (scheme, rest) => !scheme.isEmpty && scheme.all Char.isAlpha && !rest.isEmpty
  | none => false

/-- The configuration of the catch-all proxy middleware registered by
`enableProxy` (lines 298–304). -/
structure ProxyConfig where
  target : String
  secure : Bool
  changeOrigin : Bool
  deriving DecidableEq, Repr

/-- Embeds `enableProxy` (lines 284–306): the catch-all handler is
registered iff proxy mode is enabled, a proxy host is configured
(non-empty, JS truthiness) and `isValidURL` accepts it; otherwise
nothing is registered and no error is raised. -/
def enableProxy (env : EnvironmentType) : Option ProxyConfig :=
  if env.proxyMode && (env.proxyHost != "") && isValidURL env.proxyHost then
    some ⟨env.proxyHost, false, true⟩
  else none

/-! ## Lifecycle: `stop` (lines 107–116) -/

/-- The private instance registry `instances` of `ServerService`
(line 42), keyed by environment UUID; the server handle is abstracted
to a number. -/
structure ServerInstances where
  instances : List (String × Nat)
  deriving DecidableEq, Repr

/-- Lookup of `this.instances[environmentUUID]` (line 108). -/
def lookupInstance (st : ServerInstances) (uuid : String) : Option Nat :=
  (st.instances.find? (fun p => p.1 == uuid)).map (fun p => p.2)

/-- The `{running, needRestart}` status posted to the environments
store (line 113). -/
structure StatusUpdate where
  running : Bool
  needRestart : Bool
  deriving DecidableEq, Repr

/-- Embeds `stop` (lines 107–116): look up the environment's instance;
when none is registered nothing happens; otherwise the instance is
killed, deleted from the registry, and `running=false,
needRestart=false` is reported. -/
def stop (st : ServerInstances) (uuid : String) : ServerInstances × Option StatusUpdate :=
  match lookupInstance st uuid with
  | none => (st, none)
  | some _ => (⟨st.instances.filter (fun p => p.1 != uuid)⟩, some ⟨false, false⟩)

/-! ## Theorems: the response header map -/

theorem getHeader_resSet_same (res : ResHeaders) (k v : String) :
    getHeader (resSet res k v) k = some v := by
  simp [getHeader, resSet]

theorem getHeader_resSet_other (res : ResHeaders) (k k' v : String) (hk : k' ≠ k) :
    getHeader (resSet res k v) k' = getHeader res k' := by
  simp only [resSet, getHeader, if_neg (Ne.symm hk)]
  induction res with
  | nil => rfl
  | cons p t ih =>
    by_cases hp : p.1 = k
    · rw [List.filter_cons_of_neg (by simp [hp])]
      rw [ih]
      have : p.1 ≠ k' := by rw [hp]; exact Ne.symm hk
      simp [getHeader, this]
    · rw [List.filter_cons_of_pos (by simp [hp])]
      by_cases hq : p.1 = k'
      · simp [getHeader, hq]
      · simp only [getHeader, if_neg hq]
        exact ih

/-- Split `headerApplies` into its three conjuncts. -/
theorem headerApplies_parts (h : HeaderType) (ha : headerApplies h = true) :
    strTruthy h.key = true ∧ strTruthy h.value = true ∧
      testHeaderValidity (h.key.getD "") = false := by
  simp only [headerApplies, Bool.and_eq_true, Bool.not_eq_true'] at ha
  exact ⟨ha.1.1, ha.1.2, ha.2⟩

/-- Characterisation of `setHeaders`: the final value of key `k` is the
rendered value-template of the last applied entry for `k`, and the
previously written value if no entry for `k` applies. -/
theorem getHeader_setHeaders (render : String → String) (k : String) :
    ∀ (headers : List HeaderType) (res : ResHeaders),
      getHeader (setHeaders render headers res) k =
        match appliedValue k headers with
        | some v => some (render v)
        | none => getHeader res k := by
  intro headers
  induction headers with
  | nil => intro res; rfl
  | cons h t ih =>
    intro res
    have step : setHeaders render (h :: t) res =
        setHeaders render t (setHeadersStep render res h) := rfl
    rw [step, ih]
    cases hv : appliedValue k t with
    | some v => simp [appliedValue, hv]
    | none =>
      simp only [appliedValue, hv]
      by_cases hak : headerApplies h = true ∧ h.key = some k
      · obtain ⟨ha, hk⟩ := hak
        rw [if_pos ⟨ha, hk⟩]
        have hval : strTruthy h.value = true := (headerApplies_parts h ha).2.1
        cases hvv : h.value with
        | none => rw [hvv] at hval; simp [strTruthy] at hval
        | some s =>
          have hstep : setHeadersStep render res h = resSet res k (render s) := by
            simp [setHeadersStep, ha, hk, hvv]
          rw [hstep, getHeader_resSet_same]
      · rw [if_neg hak]
        by_cases ha : headerApplies h = true
        · have hk : h.key ≠ some k := fun hkk => hak ⟨ha, hkk⟩
          have hkt : strTruthy h.key = true := (headerApplies_parts h ha).1
          cases hkk : h.key with
          | none => rw [hkk] at hkt; simp [strTruthy] at hkt
          | some s =>
            have hs : s ≠ k := fun hsk => hk (by rw [hkk, hsk])
            have hstep : setHeadersStep render res h =
                resSet res s (render (h.value.getD "")) := by
              simp [setHeadersStep, ha, hkk]
            rw [hstep, getHeader_resSet_other _ _ _ _ (Ne.symm hs)]
        · simp [setHeadersStep, ha]

/-- If `testHeaderValidity` flags the key, no entry with that key ever
passes the `setHeaders` guard. -/
theorem appliedValue_of_invalid_key (k : String) (hinvalid : testHeaderValidity k = true) :
    ∀ hs : List HeaderType, appliedValue k hs = none := by
  intro hs
  induction hs with
  | nil => rfl
  | cons h t ih =>
    simp only [appliedValue, ih]
    by_cases hak : headerApplies h = true ∧ h.key = some k
    · obtain ⟨ha, hk⟩ := hak
      have hv := (headerApplies_parts h ha).2.2
      rw [hk, Option.getD_some, hinvalid] at hv
      cases hv
    · rw [if_neg hak]

/-- A non-empty key containing a character outside the token set is
flagged invalid by `testHeaderValidity`. -/
theorem testHeaderValidity_of_bad_char (k : String) (c : Char) (hc : c ∈ k.data)
    (hbad : isHeaderTokenChar c = false) : testHeaderValidity k = true := by
  have hk0 : k ≠ "" := by
    intro h
    rw [h] at hc
    simp at hc
  simp only [testHeaderValidity, Bool.and_eq_true, decide_eq_true_eq, List.any_eq_true]
  exact ⟨hk0, c, hc, by simp [hbad]⟩

/-! ## Theorems: header application claims (C3, C4, C10) -/

/-- C3: environment-level headers are applied before route-level headers
(lines 172–173), and when both lists define the same valid key the value
present in the final response is the route's (rendered) value: the later
application wins. -/
theorem c3_route_headers_override_environment (render : String → String)
    (env : EnvironmentType) (route : RouteType) (res : ResHeaders) (k v w : String)
    (hroute : appliedValue k (RouteType.headers route) = some v)
    (_henv : appliedValue k (EnvironmentType.headers env) = some w) :
    getHeader (applyRouteResponseHeaders render env route res) k = some (render v) := by
  rw [applyRouteResponseHeaders, getHeader_setHeaders, hroute]

/-- Witness for C3 at a concrete environment and route sharing the key
`x-test`. -/
theorem c3_route_headers_override_environment_witness :
    appliedValue "x-test"
        (RouteType.headers ⟨"get", "users", 200, 0, "", "", false,
          [⟨some "x-test", some "RouteValue"⟩], []⟩) = some "RouteValue" ∧
    appliedValue "x-test"
        (EnvironmentType.headers ⟨"u1", false, "e", 3000, "", 0, [], none, none, none,
          false, "", false, false, [⟨some "x-test", some "EnvValue"⟩], []⟩) =
      some "EnvValue" ∧
    getHeader (applyRouteResponseHeaders id
        ⟨"u1", false, "e", 3000, "", 0, [], none, none, none,
          false, "", false, false, [⟨some "x-test", some "EnvValue"⟩], []⟩
        ⟨"get", "users", 200, 0, "", "", false,
          [⟨some "x-test", some "RouteValue"⟩], []⟩ []) "x-test" = some "RouteValue" :=
  ⟨by decide, by decide,
    c3_route_headers_override_environment id
      ⟨"u1", false, "e", 3000, "", 0, [], none, none, none,
        false, "", false, false, [⟨some "x-test", some "EnvValue"⟩], []⟩
      ⟨"get", "users", 200, 0, "", "", false,
        [⟨some "x-test", some "RouteValue"⟩], []⟩ [] "x-test" "RouteValue" "EnvValue"
      (by decide) (by decide)⟩

/-- C4: a header entry whose key contains a character outside the
permitted HTTP token set is silently skipped by `setHeaders`: the key's
header is left exactly as it was, and in particular it is never present
in the response when it was not present before, regardless of the
entry's configured value. -/
theorem c4_invalid_header_key_never_written (render : String → String)
    (headers : List HeaderType) (res : ResHeaders) (k : String) (c : Char)
    (hc : c ∈ k.data) (hbad : isHeaderTokenChar c = false) :
    getHeader (setHeaders render headers res) k = getHeader res k ∧
      (getHeader res k = none → getHeader (setHeaders render headers res) k = none) := by
  have hinv := testHeaderValidity_of_bad_char k c hc hbad
  have hnone := appliedValue_of_invalid_key k hinv headers
  constructor
  · rw [getHeader_setHeaders, hnone]
  · intro h0
    rw [getHeader_setHeaders, hnone, h0]

/-- Witness for C4: the key `x test` contains a space; its entry is
skipped even though a value is configured. -/
theorem c4_invalid_header_key_never_written_witness :
    (' ' ∈ "x test".data) ∧ isHeaderTokenChar ' ' = false ∧
    getHeader (setHeaders id [⟨some "x test", some "v"⟩] [("other", "o")]) "x test" =
        getHeader [("other", "o")] "x test" ∧
    (getHeader ([("other", "o")] : ResHeaders) "x test" = none →
      getHeader (setHeaders id [⟨some "x test", some "v"⟩] [("other", "o")]) "x test" =
        none) :=
  ⟨by decide, by decide,
    c4_invalid_header_key_never_written id [⟨some "x test", some "v"⟩]
      [("other", "o")] "x test" ' ' (by decide) (by decide)⟩

/-- C10: a header entry whose value-template is empty or absent is
skipped entirely by `setHeaders`: the response is exactly what it would
have been had the entry not been in the list at all. -/
theorem c10_empty_value_header_skipped (render : String → String)
    (pre post : List HeaderType) (h : HeaderType) (res : ResHeaders)
    (hval : h.value = none ∨ h.value = some "") :
    setHeaders render (pre ++ h :: post) res = setHeaders render (pre ++ post) res := by
  have ha : headerApplies h = false := by
    rcases hval with hv | hv <;> simp [headerApplies, strTruthy, hv]
  simp only [setHeaders, List.foldl_append, List.foldl_cons]
  congr 1
  simp [setHeadersStep, ha]

/-- Witness for C10: an entry with the valid key `x-skip` but empty
value leaves the response untouched. -/
theorem c10_empty_value_header_skipped_witness :
    (HeaderType.value ⟨some "x-skip", some ""⟩ = none ∨
      HeaderType.value ⟨some "x-skip", some ""⟩ = some "") ∧
    setHeaders id ([⟨some "a", some "1"⟩] ++ ⟨some "x-skip", some ""⟩ :: []) [] =
      setHeaders id ([⟨some "a", some "1"⟩] ++ []) [] :=
  ⟨Or.inr rfl,
    c10_empty_value_header_skipped id [⟨some "a", some "1"⟩] [] ⟨some "x-skip", some ""⟩
      [] (Or.inr rfl)⟩

/-! ## Theorems: the log buffer (C2) -/

theorem logStep_length_le (cap : Nat) (hcap : 1 ≤ cap) (buf : List LogEntry)
    (e : LogEntry) (hle : buf.length ≤ cap) : (logStep cap buf e).length ≤ cap := by
  simp only [logStep, List.length_cons]
  by_cases h : cap ≤ buf.length
  · rw [if_pos h, List.length_dropLast]
    omega
  · rw [if_neg h]
    omega

/-- While the buffer stays under capacity, logging just accumulates the
entries in reverse arrival order. -/
theorem processRequests_under_capacity (cap : Nat) :
    ∀ (es buf : List LogEntry), es.length + buf.length ≤ cap →
      processRequests cap buf es = es.reverse ++ buf := by
  intro es
  induction es with
  | nil => intro buf _; simp [processRequests]
  | cons e t ih =>
    intro buf hle
    have hstep : logStep cap buf e = e :: buf := by
      rw [logStep, if_neg]
      simp only [List.length_cons] at hle
      omega
    have hfold : processRequests cap buf (e :: t) =
        processRequests cap (logStep cap buf e) t := by
      simp [processRequests]
    rw [hfold, hstep, ih (e :: buf) (by simp only [List.length_cons] at hle ⊢; omega)]
    simp

/-- C2: the `logRequests` middleware keeps the buffer within the fixed
capacity — one step never grows a within-capacity buffer past `cap` —
and after `cap + 1` distinct requests starting from an empty buffer the
first request's entry has been evicted from the tail while the head
holds the most recent request's entry. -/
theorem c2_log_buffer_bounded_evicts_oldest (cap : Nat) (hcap : 1 ≤ cap)
    (es : List LogEntry) (hlen : es.length = cap + 1) (hnodup : es.Nodup) :
    (∀ (buf : List LogEntry) (e : LogEntry), buf.length ≤ cap →
      (logStep cap buf e).length ≤ cap) ∧
    (processRequests cap [] es).length ≤ cap ∧
    (processRequests cap [] es).head? = es.getLast? ∧
    (∀ e0, es.head? = some e0 → e0 ∉ processRequests cap [] es) := by
  have hne : es ≠ [] := by
    intro h
    rw [h] at hlen
    simp at hlen
  have hsplit : es.dropLast ++ [es.getLast hne] = es := List.dropLast_append_getLast hne
  have hinitlen : es.dropLast.length = cap := by
    have := congrArg List.length hsplit
    simp only [List.length_append, List.length_singleton] at this
    omega
  have hinit_ne : es.dropLast ≠ [] := by
    intro h
    rw [h] at hinitlen
    simp at hinitlen
    omega
  -- the buffer after all requests
  have hkey : processRequests cap [] es =
      es.getLast hne :: es.dropLast.reverse.dropLast := by
    conv_lhs => rw [← hsplit]
    rw [processRequests, List.foldl_append]
    have h1 : List.foldl (logStep cap) [] es.dropLast = es.dropLast.reverse := by
      have := processRequests_under_capacity cap es.dropLast []
        (by simp [hinitlen])
      simpa [processRequests] using this
    rw [h1]
    simp only [List.foldl_cons, List.foldl_nil]
    rw [logStep, if_pos (by simp [hinitlen])]
  refine ⟨fun buf e hle => logStep_length_le cap hcap buf e hle, ?_, ?_, ?_⟩
  · rw [hkey]
    simp only [List.length_cons, List.length_dropLast, List.length_reverse, hinitlen]
    omega
  · rw [hkey]
    simp [List.getLast?_eq_getLast es hne]
  · intro e0 hh
    rw [hkey]
    obtain ⟨a, mid, hma⟩ : ∃ a mid, es.dropLast = a :: mid := by
      cases hdl : es.dropLast with
      | nil => exact absurd hdl hinit_ne
      | cons a mid => exact ⟨a, mid, rfl⟩
    have hes : es = a :: (mid ++ [es.getLast hne]) := by
      conv_lhs => rw [← hsplit]
      rw [hma]
      simp
    have he0 : e0 = a := by
      rw [hes] at hh
      simp only [List.head?_cons, Option.some.injEq] at hh
      exact hh.symm
    have hnodup' := hnodup
    rw [hes, List.nodup_cons] at hnodup'
    have hnotin : a ∉ mid ++ [es.getLast hne] := hnodup'.1
    simp only [List.mem_append, List.mem_singleton, not_or] at hnotin
    rw [he0, hma]
    simp only [List.reverse_cons, List.dropLast_concat]
    intro hmem
    rcases List.mem_cons.mp hmem with h1 | h2
    · exact hnotin.2 h1
    · exact hnotin.1 (List.mem_reverse.mp h2)

/-- Witness for C2 at capacity 2 with three distinct requests: the
buffer ends at its capacity, headed by the third request, and the first
request's entry is gone. -/
theorem c2_log_buffer_bounded_evicts_oldest_witness :
    (1 ≤ 2) ∧
    ([⟨"get", "/a", [], "", 1, false⟩, ⟨"get", "/b", [], "", 2, false⟩,
      ⟨"post", "/c", [], "", 3, false⟩] : List LogEntry).length = 2 + 1 ∧
    ([⟨"get", "/a", [], "", 1, false⟩, ⟨"get", "/b", [], "", 2, false⟩,
      ⟨"post", "/c", [], "", 3, false⟩] : List LogEntry).Nodup ∧
    ((∀ (buf : List LogEntry) (e : LogEntry), buf.length ≤ 2 →
        (logStep 2 buf e).length ≤ 2) ∧
      (processRequests 2 []
        [⟨"get", "/a", [], "", 1, false⟩, ⟨"get", "/b", [], "", 2, false⟩,
          ⟨"post", "/c", [], "", 3, false⟩]).length ≤ 2 ∧
      (processRequests 2 []
        [⟨"get", "/a", [], "", 1, false⟩, ⟨"get", "/b", [], "", 2, false⟩,
          ⟨"post", "/c", [], "", 3, false⟩]).head? =
        ([⟨"get", "/a", [], "", 1, false⟩, ⟨"get", "/b", [], "", 2, false⟩,
          ⟨"post", "/c", [], "", 3, false⟩] : List LogEntry).getLast? ∧
      (∀ e0,
        ([⟨"get", "/a", [], "", 1, false⟩, ⟨"get", "/b", [], "", 2, false⟩,
          ⟨"post", "/c", [], "", 3, false⟩] : List LogEntry).head? = some e0 →
        e0 ∉ processRequests 2 []
          [⟨"get", "/a", [], "", 1, false⟩, ⟨"get", "/b", [], "", 2, false⟩,
            ⟨"post", "/c", [], "", 3, false⟩])) :=
  ⟨by decide, by decide, by decide,
    c2_log_buffer_bounded_evicts_oldest 2 (by decide)
      [⟨"get", "/a", [], "", 1, false⟩, ⟨"get", "/b", [], "", 2, false⟩,
        ⟨"post", "/c", [], "", 3, false⟩] (by decide) (by decide)⟩

/-! ## Theorems: route registration (C1, C9) -/

/-- C1: every handler registered by `setRoutes` comes from a route with
an empty `duplicates` list; a route whose `duplicates` list is
non-empty has no handler, so no dispatch outcome ever originates from
it — the route is inert. -/
theorem c1_duplicated_routes_inert (validPattern : String → Bool)
    (env : EnvironmentType) :
    (∀ h ∈ setRoutes validPattern env, h.route.duplicates = []) ∧
    (∀ r ∈ env.routes, r.duplicates ≠ [] →
      ∀ h ∈ setRoutes validPattern env, h.route ≠ r) ∧
    (∀ (matcher : RegisteredHandler → Bool) (h : RegisteredHandler),
      dispatch matcher (setRoutes validPattern env) = some h →
      h.route.duplicates = []) := by
  have hmain : ∀ h ∈ setRoutes validPattern env, h.route.duplicates = [] := by
    intro h hmem
    simp only [setRoutes, List.mem_map, List.mem_filter, Bool.and_eq_true] at hmem
    obtain ⟨r, ⟨_, hdup, _⟩, hr⟩ := hmem
    rw [← hr]
    exact List.isEmpty_iff.mp hdup
  refine ⟨hmain, ?_, ?_⟩
  · intro r _ hdup h hmem heq
    exact hdup (heq ▸ hmain h hmem)
  · intro matcher h hfind
    exact hmain h (List.mem_of_find?_eq_some hfind)

/-- Witness for C1: an environment with one plain route and one
duplicated route registers exactly the plain one. -/
theorem c1_duplicated_routes_inert_witness :
    setRoutes (fun _ => true)
        ⟨"u1", false, "e", 3000, "", 0,
          [⟨"get", "a", 200, 0, "", "", false, [], []⟩,
            ⟨"get", "a", 201, 0, "", "", false, [], [0]⟩],
          none, none, none, false, "", false, false, [], []⟩ =
      [⟨"get", "/a", ⟨"get", "a", 200, 0, "", "", false, [], []⟩⟩] ∧
    (∀ h ∈ setRoutes (fun _ => true)
        ⟨"u1", false, "e", 3000, "", 0,
          [⟨"get", "a", 200, 0, "", "", false, [], []⟩,
            ⟨"get", "a", 201, 0, "", "", false, [], [0]⟩],
          none, none, none, false, "", false, false, [], []⟩,
      h.route ≠ ⟨"get", "a", 201, 0, "", "", false, [], [0]⟩) :=
  ⟨by decide,
    (c1_duplicated_routes_inert (fun _ => true)
        ⟨"u1", false, "e", 3000, "", 0,
          [⟨"get", "a", 200, 0, "", "", false, [], []⟩,
            ⟨"get", "a", 201, 0, "", "", false, [], [0]⟩],
          none, none, none, false, "", false, false, [], []⟩).2.1
      ⟨"get", "a", 201, 0, "", "", false, [], [0]⟩ (by decide) (by decide)⟩

/-- No space character survives the escaping of line 164. -/
theorem space_not_mem_escapeSpacesList : ∀ l : List Char, ' ' ∉ escapeSpacesList l := by
  intro l
  induction l with
  | nil => simp [escapeSpacesList]
  | cons c t ih =>
    simp only [escapeSpacesList]
    by_cases hc : c = ' '
    · rw [if_pos hc]
      intro hmem
      rcases List.mem_append.mp hmem with h1 | h2
      · simp at h1
      · exact ih h2
    · rw [if_neg hc]
      intro hmem
      rcases List.mem_append.mp hmem with h1 | h2
      · simp at h1
        exact hc h1.symm
      · exact ih h2

/-- Escaping is the identity on endpoints without spaces. -/
theorem escapeSpacesList_of_no_space :
    ∀ l : List Char, ' ' ∉ l → escapeSpacesList l = l := by
  intro l
  induction l with
  | nil => intro _; rfl
  | cons c t ih =>
    intro hns
    have hc : c ≠ ' ' := fun h => hns (by rw [h]; exact List.mem_cons_self _ _)
    rw [escapeSpacesList, if_neg hc, List.singleton_append,
      ih (fun hm => hns (List.mem_cons_of_mem _ hm))]

/-- C9 counterexample: the claim's wording (prefix, then `/`, then the
escaped endpoint) omits the leading slash that line 164 always
prepends; with prefix `api` and endpoint `users` the code registers
`/api/users`, not `api/users`. -/
theorem c9_claimed_path_counterexample :
    claimRoutePath "api" "users" = "api/users" ∧
    buildRoutePath "api" "users" = "/api/users" ∧
    claimRoutePath "api" "users" ≠ buildRoutePath "api" "users" := by
  refine ⟨by decide, by decide, by decide⟩

/-- C9 (amended): the registered path always starts with `/`, followed
by the prefix and `/` when the environment has a non-empty prefix,
followed by the route endpoint with every literal space escaped; with
no prefix the path is `/` plus the escaped endpoint.  Escaping
eliminates every space and is the identity on space-free endpoints. -/
theorem c9_route_path_construction (prefixPart endpoint : String) :
    (prefixPart = "" → buildRoutePath prefixPart endpoint = "/" ++ escapeSpaces endpoint) ∧
    (prefixPart ≠ "" →
      buildRoutePath prefixPart endpoint =
        "/" ++ prefixPart ++ "/" ++ escapeSpaces endpoint) ∧
    (' ' ∉ (escapeSpaces endpoint).data) ∧
    ((' ' ∉ endpoint.data) → escapeSpaces endpoint = endpoint) := by
  refine ⟨?_, ?_, ?_, ?_⟩
  · intro h
    simp [buildRoutePath, h]
  · intro h
    simp only [buildRoutePath, if_pos h, String.append_assoc]
  · exact space_not_mem_escapeSpacesList endpoint.data
  · intro hnosp
    obtain ⟨l⟩ := endpoint
    exact congrArg String.mk (escapeSpacesList_of_no_space l hnosp)

/-- Witness for C9 at prefix `api` and endpoint `user list`: the
registered path is `/api/user%20list`. -/
theorem c9_route_path_construction_witness :
    ("api" ≠ "" →
      buildRoutePath "api" "user list" = "/" ++ "api" ++ "/" ++ escapeSpaces "user list") ∧
    ("api" : String) ≠ "" ∧
    buildRoutePath "api" "user list" = "/api/user%20list" ∧
    buildRoutePath "" "users" = "/users" :=
  ⟨(c9_route_path_construction "api" "user list").2.1, by decide, by decide, by decide⟩

/-! ## Theorems: body resolution (C5, C6) -/

/-- C5 counterexample: V8's `JSON.parse` on the empty rendered body
throws `Unexpected end of JSON input`, a message containing neither
`Unexpected token` nor `Parse error` nor `Missing helper`; the catch of
lines 213–221 falls through every test and the response is a bare
`res.end()` — not the plain-text error with alert that the claim
demands for every invalid rendered body. -/
theorem c5_invalid_json_silent_end_counterexample :
    handleInlineBody "application/json" id
        (fun _ => (Except.error "Unexpected end of JSON input" : Except String Nat)) "" =
      InlineResponse.endedEmpty ∧
    handleInlineBody "application/json" id
        (fun _ => (Except.error "Unexpected end of JSON input" : Except String Nat)) "" ≠
      InlineResponse.errorResponse jsonParseErrorText "text/plain" true := by
  refine ⟨by decide, by decide⟩

/-- C5 (amended): with an effective `application/json` content type the
rendered body is parsed and, when valid, emitted as a JSON response;
when parsing fails with a message containing `Unexpected token` or
`Parse error` the response is a `text/plain` error with an alert, and
the malformed string is never sent as the body; a parse failure whose
message contains none of the dispatched substrings ends the response
empty — no error body, no alert. -/
theorem c5_json_parse_dispatch {α : Type} (render : String → String)
    (jsonParse : String → Except String α) (body : String) :
    (∀ v, jsonParse (render body) = Except.ok v →
      handleInlineBody "application/json" render jsonParse body =
        InlineResponse.jsonResponse v) ∧
    (∀ msg, jsonParse (render body) = Except.error msg →
      ((containsSubstr msg "Unexpected token" || containsSubstr msg "Parse error") = true →
        handleInlineBody "application/json" render jsonParse body =
            InlineResponse.errorResponse jsonParseErrorText "text/plain" true ∧
          ∀ s, handleInlineBody "application/json" render jsonParse body ≠
            InlineResponse.textResponse s) ∧
      ((containsSubstr msg "Unexpected token" || containsSubstr msg "Parse error") = false →
        containsSubstr msg "Missing helper" = false →
        handleInlineBody "application/json" render jsonParse body =
          InlineResponse.endedEmpty)) := by
  constructor
  · intro v hv
    simp [handleInlineBody, hv]
  · intro msg hmsg
    constructor
    · intro hsub
      constructor
      · simp [handleInlineBody, hmsg, hsub]
      · intro s
        simp [handleInlineBody, hmsg, hsub]
    · intro hsub hmh
      simp [handleInlineBody, hmsg, hsub, hmh]

/-- Witness for C5 (amended) with `JSON.parse` instantiated to a toy
parser throwing V8-style messages: `42` is emitted as JSON, `x` is
rejected with an `Unexpected token` message and yields the plain-text
error with alert, and the empty body's `Unexpected end of JSON input`
message slips through the dispatch and ends the response empty. -/
theorem c5_json_parse_dispatch_witness :
    handleInlineBody "application/json" id
        (fun s => if s = "42" then Except.ok (42 : Nat)
          else if s = "x" then Except.error "Unexpected token x in JSON at position 0"
          else Except.error "Unexpected end of JSON input") "42" =
      InlineResponse.jsonResponse 42 ∧
    handleInlineBody "application/json" id
        (fun s => if s = "42" then Except.ok (42 : Nat)
          else if s = "x" then Except.error "Unexpected token x in JSON at position 0"
          else Except.error "Unexpected end of JSON input") "x" =
      InlineResponse.errorResponse jsonParseErrorText "text/plain" true ∧
    handleInlineBody "application/json" id
        (fun s => if s = "42" then Except.ok (42 : Nat)
          else if s = "x" then Except.error "Unexpected token x in JSON at position 0"
          else Except.error "Unexpected end of JSON input") "" =
      InlineResponse.endedEmpty :=
  ⟨(c5_json_parse_dispatch id
      (fun s => if s = "42" then Except.ok (42 : Nat)
        else if s = "x" then Except.error "Unexpected token x in JSON at position 0"
        else Except.error "Unexpected end of JSON input") "42").1 42 rfl,
    (((c5_json_parse_dispatch id
      (fun s => if s = "42" then Except.ok (42 : Nat)
        else if s = "x" then Except.error "Unexpected token x in JSON at position 0"
        else Except.error "Unexpected end of JSON input") "x").2
      "Unexpected token x in JSON at position 0" rfl).1 (by decide)).1,
    ((c5_json_parse_dispatch id
      (fun s => if s = "42" then Except.ok (42 : Nat)
        else if s = "x" then Except.error "Unexpected token x in JSON at position 0"
        else Except.error "Unexpected end of JSON input") "").2
      "Unexpected end of JSON input" rfl).2 (by decide) (by decide)⟩

/-- C6: the served file is read at the template-rendered path, and its
content passes through the Template Renderer precisely when the
resolved mime type belongs to the fixed allow-list — any mime type
outside the list (or an unresolvable one) is served raw. -/
theorem c6_file_route_templating_allowlist (render readFile : String → String)
    (mimeLookup : String → Option String) (templatableMimeTypes : List String)
    (basename : String → String) (routeContentType : String) (route : RouteType) :
    (∀ m, mimeLookup route.filePath = some m → m ∈ templatableMimeTypes →
      (handleFileRoute render readFile mimeLookup templatableMimeTypes basename
          routeContentType route).body = render (readFile (render route.filePath))) ∧
    (∀ m, mimeLookup route.filePath = some m → m ∉ templatableMimeTypes →
      (handleFileRoute render readFile mimeLookup templatableMimeTypes basename
          routeContentType route).body = readFile (render route.filePath)) ∧
    (mimeLookup route.filePath = none →
      (handleFileRoute render readFile mimeLookup templatableMimeTypes basename
          routeContentType route).body = readFile (render route.filePath)) := by
  refine ⟨?_, ?_, ?_⟩
  · intro m hm hin
    simp [handleFileRoute, hm, hin]
  · intro m hm hout
    simp [handleFileRoute, hm, hout]
  · intro hnone
    simp [handleFileRoute, hnone]

/-- Witness for C6: with mime `text/plain` in the allow-list the file
content is rendered; with an empty allow-list it is served raw; in both
cases the file is read at the rendered path. -/
theorem c6_file_route_templating_allowlist_witness :
    (handleFileRoute (fun s => s ++ "!") (fun p => "content:" ++ p)
        (fun _ => some "text/plain") ["text/plain"] id ""
        ⟨"get", "f", 200, 0, "", "f.txt", true, [], []⟩).body =
      (fun s => s ++ "!") ((fun p => "content:" ++ p) ((fun s => s ++ "!") "f.txt")) ∧
    (handleFileRoute (fun s => s ++ "!") (fun p => "content:" ++ p)
        (fun _ => some "text/plain") [] id ""
        ⟨"get", "f", 200, 0, "", "f.txt", true, [], []⟩).body =
      (fun p => "content:" ++ p) ((fun s => s ++ "!") "f.txt") :=
  ⟨(c6_file_route_templating_allowlist (fun s => s ++ "!") (fun p => "content:" ++ p)
      (fun _ => some "text/plain") ["text/plain"] id ""
      ⟨"get", "f", 200, 0, "", "f.txt", true, [], []⟩).1 "text/plain" rfl (by decide),
    (c6_file_route_templating_allowlist (fun s => s ++ "!") (fun p => "content:" ++ p)
      (fun _ => some "text/plain") [] id ""
      ⟨"get", "f", 200, 0, "", "f.txt", true, [], []⟩).2.1 "text/plain" rfl (by decide)⟩

/-! ## Theorems: proxy fallback (C7) -/

/-- C7: the proxy fallback is registered iff proxy mode is enabled, an
upstream origin is configured and it passes `isValidURL`; a failing
origin silently yields no registration.  `isValidURL` accepts
`https://example.com` and rejects `not-a-url`. -/
theorem c7_proxy_registered_iff_valid_target :
    (∀ env : EnvironmentType, (enableProxy env).isSome =
      (env.proxyMode && (env.proxyHost != "") && isValidURL env.proxyHost)) ∧
    (∀ env : EnvironmentType,
      (env.proxyMode && (env.proxyHost != "") && isValidURL env.proxyHost) = false →
        enableProxy env = none) ∧
    isValidURL "https://example.com" = true ∧
    isValidURL "not-a-url" = false := by
  refine ⟨?_, ?_, by decide, by decide⟩
  · intro env
    by_cases h : (env.proxyMode && (env.proxyHost != "") && isValidURL env.proxyHost) = true
    · simp [enableProxy, h]
    · rw [Bool.not_eq_true] at h
      simp [enableProxy, h]
  · intro env h
    simp [enableProxy, h]

/-- Witness for C7: a valid target enables the proxy, an invalid one
silently disables it. -/
theorem c7_proxy_registered_iff_valid_target_witness :
    ((EnvironmentType.proxyMode ⟨"u1", false, "e", 3000, "", 0, [], none, none, none,
        true, "not-a-url", false, false, [], []⟩ &&
      (EnvironmentType.proxyHost ⟨"u1", false, "e", 3000, "", 0, [], none, none, none,
        true, "not-a-url", false, false, [], []⟩ != "") &&
      isValidURL (EnvironmentType.proxyHost ⟨"u1", false, "e", 3000, "", 0, [], none,
        none, none, true, "not-a-url", false, false, [], []⟩)) = false) ∧
    enableProxy ⟨"u1", false, "e", 3000, "", 0, [], none, none, none,
      true, "not-a-url", false, false, [], []⟩ = none ∧
    enableProxy ⟨"u1", false, "e", 3000, "", 0, [], none, none, none,
      true, "https://example.com", false, false, [], []⟩ =
      some ⟨"https://example.com", false, true⟩ :=
  ⟨by decide,
    c7_proxy_registered_iff_valid_target.2.1
      ⟨"u1", false, "e", 3000, "", 0, [], none, none, none,
        true, "not-a-url", false, false, [], []⟩ (by decide),
    by decide⟩

/-! ## Theorems: lifecycle (C8) -/

theorem find?_filter_ne_none (l : List (String × Nat)) (uuid : String) :
    (l.filter (fun p => p.1 != uuid)).find? (fun p => p.1 == uuid) = none := by
  induction l with
  | nil => rfl
  | cons p t ih =>
    by_cases hp : p.1 = uuid
    · rw [List.filter_cons_of_neg (by simp [hp])]
      exact ih
    · rw [List.filter_cons_of_pos (by simp [hp]),
        List.find?_cons_of_neg _ (by simp [hp])]
      exact ih

theorem find?_filter_ne_other (l : List (String × Nat)) (uuid u : String)
    (hu : u ≠ uuid) :
    (l.filter (fun p => p.1 != uuid)).find? (fun p => p.1 == u) =
      l.find? (fun p => p.1 == u) := by
  induction l with
  | nil => rfl
  | cons p t ih =>
    by_cases hp : p.1 = uuid
    · rw [List.filter_cons_of_neg (by simp [hp]),
        List.find?_cons_of_neg _ (by simp only [hp, beq_iff_eq]; exact Ne.symm hu)]
      exact ih
    · rw [List.filter_cons_of_pos (by simp [hp])]
      by_cases hq : p.1 = u
      · rw [List.find?_cons_of_pos _ (by simp [hq]),
          List.find?_cons_of_pos _ (by simp [hq])]
      · rw [List.find?_cons_of_neg _ (by simp [hq]),
          List.find?_cons_of_neg _ (by simp [hq])]
        exact ih

/-- C8: stopping an environment with no registered instance is a
no-op — same registry, no status report; stopping one with a registered
instance deregisters exactly that instance and reports
`running=false, needRestart=false`, leaving every other environment's
instance untouched. -/
theorem c8_stop_noop_or_terminates (st : ServerInstances) (uuid : String) :
    (lookupInstance st uuid = none → stop st uuid = (st, none)) ∧
    (∀ i, lookupInstance st uuid = some i →
      lookupInstance (stop st uuid).1 uuid = none ∧
      (stop st uuid).2 = some ⟨false, false⟩ ∧
      (∀ u, u ≠ uuid → lookupInstance (stop st uuid).1 u = lookupInstance st u)) := by
  constructor
  · intro h
    simp [stop, h]
  · intro i h
    have hstop : stop st uuid =
        (⟨st.instances.filter (fun p => p.1 != uuid)⟩, some ⟨false, false⟩) := by
      simp only [stop, h]
    rw [hstop]
    refine ⟨?_, rfl, ?_⟩
    · simp [lookupInstance, find?_filter_ne_none]
    · intro u hu
      simp only [lookupInstance]
      rw [find?_filter_ne_other st.instances uuid u hu]

/-- Witness for C8: with only environment `a` running, stopping `b`
changes nothing; stopping `a` empties the registry and reports
`running=false, needRestart=false`. -/
theorem c8_stop_noop_or_terminates_witness :
    lookupInstance ⟨[("a", 7)]⟩ "b" = none ∧
    stop ⟨[("a", 7)]⟩ "b" = (⟨[("a", 7)]⟩, none) ∧
    lookupInstance ⟨[("a", 7)]⟩ "a" = some 7 ∧
    lookupInstance (stop ⟨[("a", 7)]⟩ "a").1 "a" = none ∧
    (stop ⟨[("a", 7)]⟩ "a").2 = some ⟨false, false⟩ :=
  ⟨by decide,
    (c8_stop_noop_or_terminates ⟨[("a", 7)]⟩ "b").1 (by decide),
    by decide,
    ((c8_stop_noop_or_terminates ⟨[("a", 7)]⟩ "a").2 7 (by decide)).1,
    ((c8_stop_noop_or_terminates ⟨[("a", 7)]⟩ "a").2 7 (by decide)).2.1⟩

end Mockoon
